import Mathlib

/-!
Shallow embedding of the analytics core of `gex_calculator.py`
(Black-Scholes Greek engine, option-chain aggregation, flow metrics,
gamma-flip detection), with theorems settling the specification claims.

Real-valued Black-Scholes quantities are embedded over `ℝ`; the purely
structural chain-processing pipeline (strike filtering, deduplication,
ATM scan, windowed flow sums, flip-zone scan, hedging-pressure
normalisation) is embedded over `ℚ` wherever the Python source only
compares, sorts and sums the raw float columns, so that all of it stays
executable on concrete inputs.
-/

namespace GexCalc

open MeasureTheory

/-! Section: Black-Scholes calculator (`BlackScholesCalculator`, lines 15-54) -/

/-- Standard normal density, the `norm.pdf` of `scipy.stats`. -/
noncomputable def normPdf (x : ℝ) : ℝ :=
  Real.exp (-(x ^ 2) / 2) / Real.sqrt (2 * Real.pi)

/-- Standard normal cumulative distribution, the `norm.cdf` of `scipy.stats`. -/
noncomputable def normCdf (x : ℝ) : ℝ :=
  ∫ t in Set.Iic x, normPdf t

/-- `BlackScholesCalculator.calculate_d1`. -/
noncomputable def calculate_d1 (S K T r sigma : ℝ) : ℝ :=
  if T ≤ 0 ∨ sigma ≤ 0 then 0
  else (Real.log (S / K) + (r + 0.5 * sigma ^ 2) * T) / (sigma * Real.sqrt T)

/-- `BlackScholesCalculator.calculate_gamma`. -/
noncomputable def calculate_gamma (S K T r sigma : ℝ) : ℝ :=
  if T ≤ 0 ∨ sigma ≤ 0 ∨ S ≤ 0 ∨ K ≤ 0 then 0
  else normPdf (calculate_d1 S K T r sigma) / (S * sigma * Real.sqrt T)

/-- `BlackScholesCalculator.calculate_call_delta`. -/
noncomputable def calculate_call_delta (S K T r sigma : ℝ) : ℝ :=
  if T ≤ 0 ∨ sigma ≤ 0 ∨ S ≤ 0 ∨ K ≤ 0 then 0
  else normCdf (calculate_d1 S K T r sigma)

/-- `BlackScholesCalculator.calculate_put_delta`. -/
noncomputable def calculate_put_delta (S K T r sigma : ℝ) : ℝ :=
  if T ≤ 0 ∨ sigma ≤ 0 ∨ S ≤ 0 ∨ K ≤ 0 then 0
  else normCdf (calculate_d1 S K T r sigma) - 1

/-! Section: Flow metrics (`calculate_dual_gex_dex_flow`, lines 439-566)

The flow analyzer reads only the `Strike`, `Net_GEX_B` and `Net_DEX_B`
columns of the DataFrame it is handed, so its embedding operates on rows
carrying exactly those three (rational) numeric fields. -/

structure FlowRow where
  strike : ℚ
  netGexB : ℚ
  netDexB : ℚ
deriving DecidableEq, Repr

/-- `df['Net_GEX_B'].sum()` over a row list. -/
def sumGex (l : List FlowRow) : ℚ := (l.map (·.netGexB)).sum

/-- `df['Net_DEX_B'].sum()` over a row list. -/
def sumDex (l : List FlowRow) : ℚ := (l.map (·.netDexB)).sum

def dropDupGo (seen : List ℚ) : List FlowRow → List FlowRow
  | [] => []
  | r :: rest =>
      if r.strike ∈ seen then dropDupGo seen rest
      else r :: dropDupGo (r.strike :: seen) rest

/-- `df.drop_duplicates(subset=['Strike'])` — keeps the first row per strike. -/
def drop_duplicates (l : List FlowRow) : List FlowRow := dropDupGo [] l

/-- `sort_values('Strike')` (stable sort on the strike column). -/
def sortStrike (l : List FlowRow) : List FlowRow :=
  List.insertionSort (fun a b => a.strike ≤ b.strike) l

/-- `sort_values('Distance')` after `Distance = abs(Strike - futures_ltp)`. -/
def sortDistance (fut : ℚ) (l : List FlowRow) : List FlowRow :=
  List.insertionSort (fun a b => |a.strike - fut| ≤ |b.strike - fut|) l

/-- `l.drop (l.length - n)`, the embedding of pandas `.tail(n)`. -/
def takeLast (n : ℕ) (l : List FlowRow) : List FlowRow := l.drop (l.length - n)

/-- The nested `get_gex_bias` of `calculate_dual_gex_dex_flow` (lines 510-520). -/
def get_gex_bias (flow_value : ℚ) : String × String :=
  if 50 < flow_value then ("STRONG BULLISH (Sideways to Bullish)", "green")
  else if 0 < flow_value then ("BULLISH (Sideways to Bullish)", "lightgreen")
  else if flow_value < -50 then ("HIGH VOLATILITY (Strong)", "red")
  else if flow_value < 0 then ("HIGH VOLATILITY", "lightcoral")
  else ("NEUTRAL", "orange")

/-- The nested `get_dex_bias` of `calculate_dual_gex_dex_flow` (lines 522-532). -/
def get_dex_bias (flow_value : ℚ) : String × String :=
  if 50 < flow_value then ("BULLISH", "green")
  else if flow_value < -50 then ("BEARISH", "red")
  else if 0 < flow_value then ("Mild Bullish", "lightgreen")
  else if flow_value < 0 then ("Mild Bearish", "lightcoral")
  else ("NEUTRAL", "orange")

structure FlowMetrics where
  gex_near_positive : ℚ
  gex_near_negative : ℚ
  gex_near_total : ℚ
  gex_near_bias : String
  gex_near_color : String
  gex_total_positive : ℚ
  gex_total_negative : ℚ
  gex_total_all : ℚ
  gex_total_bias : String
  gex_total_color : String
  dex_near_positive : ℚ
  dex_near_negative : ℚ
  dex_near_total : ℚ
  dex_near_bias : String
  dex_near_color : String
  dex_total_positive : ℚ
  dex_total_negative : ℚ
  dex_total_all : ℚ
  dex_total_bias : String
  dex_total_color : String
  combined_signal : ℚ
  combined_bias : String
  combined_color : String
deriving DecidableEq, Repr

/-- The all-default record returned when the DataFrame is empty (lines 442-468). -/
def noDataFlowMetrics : FlowMetrics :=
  ⟨0, 0, 0, "NO DATA", "gray",
   0, 0, 0, "NO DATA", "gray",
   0, 0, 0, "NO DATA", "gray",
   0, 0, 0, "NO DATA", "gray",
   0, "NO DATA", "gray"⟩

/-- `calculate_dual_gex_dex_flow` (lines 439-566). -/
def calculate_dual_gex_dex_flow (df : List FlowRow) (futures_ltp : ℚ) : FlowMetrics :=
  if df = [] then noDataFlowMetrics
  else
    let u := sortStrike (drop_duplicates df)
    let pos := u.filter fun r => decide (0 < r.netGexB)
    let posSel := if pos = [] then pos else (sortDistance futures_ltp pos).take 5
    let neg := u.filter fun r => decide (r.netGexB < 0)
    let negSel := if neg = [] then neg else (sortDistance futures_ltp neg).take 5
    let gexNearPos := if posSel = [] then 0 else sumGex posSel
    let gexNearNeg := if negSel = [] then 0 else sumGex negSel
    let gexNearTotal := gexNearPos + gexNearNeg
    let gexTotPos := if pos = [] then 0 else sumGex pos
    let gexTotNeg := if neg = [] then 0 else sumGex neg
    let gexTotAll := gexTotPos + gexTotNeg
    let above := (u.filter fun r => decide (futures_ltp < r.strike)).take 5
    let below := takeLast 5 (u.filter fun r => decide (r.strike < futures_ltp))
    let dexNearPos := if above = [] then 0 else sumDex above
    let dexNearNeg := if below = [] then 0 else sumDex below
    let dexNearTotal := dexNearPos + dexNearNeg
    let dpos := u.filter fun r => decide (0 < r.netDexB)
    let dneg := u.filter fun r => decide (r.netDexB < 0)
    let dexTotPos := if dpos = [] then 0 else sumDex dpos
    let dexTotNeg := if dneg = [] then 0 else sumDex dneg
    let dexTotAll := dexTotPos + dexTotNeg
    let gnb := get_gex_bias gexNearTotal
    let gtb := get_gex_bias gexTotAll
    let dnb := get_dex_bias dexNearTotal
    let dtb := get_dex_bias dexTotAll
    let combinedSignal := (gexNearTotal + dexNearTotal) / 2
    let cb := get_gex_bias combinedSignal
    ⟨gexNearPos, gexNearNeg, gexNearTotal, gnb.1, gnb.2,
     gexTotPos, gexTotNeg, gexTotAll, gtb.1, gtb.2,
     dexNearPos, dexNearNeg, dexNearTotal, dnb.1, dnb.2,
     dexTotPos, dexTotNeg, dexTotAll, dtb.1, dtb.2,
     combinedSignal, cb.1, cb.2⟩

/-- Restatement of the spec's words for C1 (positional window): the sum of
`net_gex` over the rows of the price-sorted deduplicated table whose
position is within 5 of the position of the strike adjacent to (i.e.
nearest in absolute distance to) the reference price. -/
def gexNearTotalPositional (df : List FlowRow) (futures_ltp : ℚ) : ℚ :=
  let u := sortStrike (drop_duplicates df)
  let i := u.findIdx fun r =>
    u.all fun q => decide (|r.strike - futures_ltp| ≤ |q.strike - futures_ltp|)
  ((u.enum.filter fun p => decide (i ≤ p.1 + 5 ∧ p.1 ≤ i + 5)).map
    fun p => p.2.netGexB).sum

/-- A 13-strike table (strikes 100, 110, …, 220): one large positive
`net_gex` at the far-left strike, a small positive one at the far-right
strike, and eleven `-1` rows in between. -/
def exTable : List FlowRow :=
  [⟨100, 1000, 0⟩, ⟨110, -1, 0⟩, ⟨120, -1, 0⟩, ⟨130, -1, 0⟩, ⟨140, -1, 0⟩,
   ⟨150, -1, 0⟩, ⟨160, -1, 0⟩, ⟨170, -1, 0⟩, ⟨180, -1, 0⟩, ⟨190, -1, 0⟩,
   ⟨200, -1, 0⟩, ⟨210, -1, 0⟩, ⟨220, 7, 0⟩]

/-- Claim-level description of the code's near-money GEX total: sum of
`net_gex` over the (up to) 5 positive-`net_gex` rows nearest the reference
price in absolute price distance, plus the same over the (up to) 5 nearest
negative-`net_gex` rows. -/
def gexNearDescr (df : List FlowRow) (futures_ltp : ℚ) : ℚ :=
  let u := sortStrike (drop_duplicates df)
  sumGex ((sortDistance futures_ltp (u.filter fun r => decide (0 < r.netGexB))).take 5) +
  sumGex ((sortDistance futures_ltp (u.filter fun r => decide (r.netGexB < 0))).take 5)

/-- Claim-level description of the code's near-money DEX total: sum of
`net_dex` over the (up to) 5 rows whose strike lies immediately above the
reference price plus the (up to) 5 rows immediately below it, in the
price-sorted deduplicated table. -/
def dexNearDescr (df : List FlowRow) (futures_ltp : ℚ) : ℚ :=
  let u := sortStrike (drop_duplicates df)
  sumDex ((u.filter fun r => decide (futures_ltp < r.strike)).take 5) +
  sumDex (takeLast 5 (u.filter fun r => decide (r.strike < futures_ltp)))

/-! Section: Gamma flip detection (`detect_gamma_flip_zones`, lines 572-605) -/

structure FlipZone where
  flip_strike : ℚ
  lower_strike : ℚ
  upper_strike : ℚ
  flip_type : String
  lower_gex : ℚ
  upper_gex : ℚ
deriving DecidableEq, Repr

/-- The zone record built for one adjacent pair (lines 585-603). -/
def mkFlipZone (a b : FlowRow) : FlipZone :=
  let s := |a.netGexB| + |b.netGexB|
  let fs := if 0 < s then a.strike + (b.strike - a.strike) * (|a.netGexB| / s)
            else (a.strike + b.strike) / 2
  ⟨fs, a.strike, b.strike,
   if 0 < a.netGexB then "Positive to Negative" else "Negative to Positive",
   a.netGexB, b.netGexB⟩

/-- The ascending scan over adjacent pairs (lines 580-603). -/
def flipScan : List FlowRow → List FlipZone
  | a :: b :: rest =>
      (if (0 < a.netGexB ∧ b.netGexB < 0) ∨ (a.netGexB < 0 ∧ 0 < b.netGexB)
       then [mkFlipZone a b] else []) ++ flipScan (b :: rest)
  | _ => []

/-- `detect_gamma_flip_zones` (lines 572-605). -/
def detect_gamma_flip_zones (df : List FlowRow) : List FlipZone :=
  if df = [] then [] else flipScan (sortStrike df)

/-- The claim's strict flip condition on an adjacent pair: current strictly
positive and next strictly negative, or the reverse. -/
def strictFlip (p : FlowRow × FlowRow) : Bool :=
  decide ((0 < p.1.netGexB ∧ p.2.netGexB < 0) ∨ (p.1.netGexB < 0 ∧ 0 < p.2.netGexB))

/-- The claim's flip price: magnitude-weighted interpolation between the two
strikes, with the midpoint as fallback when both magnitudes are zero. -/
def claimFlipPrice (a b : FlowRow) : ℚ :=
  if |a.netGexB| + |b.netGexB| = 0 then (a.strike + b.strike) / 2
  else a.strike + (b.strike - a.strike) * |a.netGexB| / (|a.netGexB| + |b.netGexB|)

/-- The claim's zone record for an adjacent pair. -/
def claimFlipZone (p : FlowRow × FlowRow) : FlipZone :=
  ⟨claimFlipPrice p.1 p.2, p.1.strike, p.2.strike,
   if 0 < p.1.netGexB then "Positive to Negative" else "Negative to Positive",
   p.1.netGexB, p.2.netGexB⟩

/-- Restatement of the claim for C8: the zones are exactly the adjacent pairs
of the price-sorted table passing the strict sign-flip filter, each mapped to
the interpolated zone record. -/
def flipZonesDescr (df : List FlowRow) : List FlipZone :=
  let u := sortStrike df
  ((u.zip u.tail).filter strictFlip).map claimFlipZone

/-! Section: Hedging pressure (lines 398-403)

The hedging-pressure step is a column-wise operation on the `Net_GEX_B`
series; it is embedded generically over any linear ordered field so that the
same definition serves the real-valued aggregated table and concrete rational
instances. -/

/-- `df['Net_GEX_B'].abs().max()` (with 0 for the empty column). -/
def maxAbsGex {α : Type} [LinearOrderedField α] (l : List α) : α :=
  l.foldr (fun g m => max |g| m) 0

/-- Lines 399-403: divide the column by its maximum absolute value and scale
by 100 when that maximum is positive; otherwise set every entry to 0. -/
def hedging_pressure_col {α : Type} [LinearOrderedField α] (l : List α) : List α :=
  if 0 < maxAbsGex l then l.map fun g => g / maxAbsGex l * 100
  else l.map fun _ => 0

/-! Section: Chain aggregation (`fetch_and_calculate_gex_dex`, lines 155-433)

The network/retry layers are out of scope; the embedding covers the pure
chain-processing core of a successful attempt: per-item filtering and
first-seen deduplication (lines 270-284), the ATM scan (lines 301-307),
Greek and exposure computation per kept strike (lines 309-374), sorting,
`_B` column duplication, hedging pressure, and the empty-result error path
(lines 376-433). -/

structure RawOption where
  expiryDate : String
  strikePrice : ℚ
  callOI : ℚ
  putOI : ℚ
  callOIChange : ℚ
  putOIChange : ℚ
  callVolume : ℚ
  putVolume : ℚ
  callIV : ℚ
  putIV : ℚ
  callLTP : ℚ
  putLTP : ℚ
deriving DecidableEq, Repr

structure AggConfig where
  selectedExpiry : String
  spot : ℚ
  strikesRange : ℕ
  contractSize : ℚ
  strikeInterval : ℚ
  timeToExpiry : ℚ
deriving DecidableEq, Repr

/-- `self.risk_free_rate = 0.07`. -/
def risk_free_rate : ℚ := 7 / 100

/-- `futures_ltp = spot_price * 1.002` (line 240). -/
def futuresLtp (cfg : AggConfig) : ℚ := cfg.spot * (1002 / 1000)

/-- The per-item filter loop of lines 270-284 threaded through the
`processed_strikes` set: skip items of another expiry, skip a zero or
already-seen strike, mark the strike processed, then drop strikes whose
distance from the futures price exceeds `strikes_range` intervals. -/
def selGo (cfg : AggConfig) (seen : List ℚ) : List RawOption → List RawOption
  | [] => []
  | it :: rest =>
      if cfg.selectedExpiry ≠ "" ∧ it.expiryDate ≠ cfg.selectedExpiry then
        selGo cfg seen rest
      else if it.strikePrice = 0 ∨ it.strikePrice ∈ seen then
        selGo cfg seen rest
      else if (cfg.strikesRange : ℚ) < |it.strikePrice - futuresLtp cfg| / cfg.strikeInterval then
        selGo cfg (it.strikePrice :: seen) rest
      else
        it :: selGo cfg (it.strikePrice :: seen) rest

/-- The filtered, deduplicated quotes, in provider order. -/
def selectQuotes (cfg : AggConfig) (items : List RawOption) : List RawOption :=
  selGo cfg [] items

/-- The `processed_strikes` set after scanning a list of items. -/
def seenGo (cfg : AggConfig) (seen : List ℚ) : List RawOption → List ℚ
  | [] => seen
  | it :: rest =>
      if cfg.selectedExpiry ≠ "" ∧ it.expiryDate ≠ cfg.selectedExpiry then
        seenGo cfg seen rest
      else if it.strikePrice = 0 ∨ it.strikePrice ∈ seen then
        seenGo cfg seen rest
      else
        seenGo cfg (it.strikePrice :: seen) rest

/-- `processed_strikes` after scanning `items` from the initial empty set. -/
def processedStrikes (cfg : AggConfig) (items : List RawOption) : List ℚ :=
  seenGo cfg [] items

/-- `abs(strike - futures_ltp)`, the ATM distance of lines 302-303. -/
def atmDist (fut : ℚ) (q : RawOption) : ℚ := |q.strikePrice - fut|

/-- The running ATM tracker of lines 301-307: strictly smaller distance
replaces the incumbent, so the first minimiser in scan order wins ties. -/
def atmGoAux (fut : ℚ) (best : RawOption) (bestDiff : ℚ) : List RawOption → RawOption
  | [] => best
  | q :: rest =>
      if atmDist fut q < bestDiff then atmGoAux fut q (atmDist fut q) rest
      else atmGoAux fut best bestDiff rest

/-- The ATM scan over the kept quotes in provider order (initial
`min_atm_diff = inf`, so the first quote always becomes the incumbent). -/
def atmScan (fut : ℚ) : List RawOption → Option RawOption
  | [] => none
  | q :: rest => some (atmGoAux fut q (atmDist fut q) rest)

structure AtmInfo where
  atm_strike : ℚ
  atm_call_premium : ℚ
  atm_put_premium : ℚ
  atm_straddle_premium : ℚ
deriving DecidableEq, Repr

/-- The `atm_info` dict of lines 406-413 (the error-path default of lines
426-431 is the all-zero record). -/
def atmInfoOf (fut : ℚ) (qs : List RawOption) : AtmInfo :=
  match atmScan fut qs with
  | none => ⟨0, 0, 0, 0⟩
  | some q => ⟨q.strikePrice, q.callLTP, q.putLTP, q.callLTP + q.putLTP⟩

structure ExposureRow where
  strike : ℚ
  callOI : ℚ
  putOI : ℚ
  callOIChange : ℚ
  putOIChange : ℚ
  callVolume : ℚ
  putVolume : ℚ
  callIV : ℚ
  putIV : ℚ
  callLTP : ℚ
  putLTP : ℚ
  callGamma : ℝ
  putGamma : ℝ
  callDelta : ℝ
  putDelta : ℝ
  callGex : ℝ
  putGex : ℝ
  netGex : ℝ
  callDex : ℝ
  putDex : ℝ
  netDex : ℝ
  callFlowGex : ℝ
  putFlowGex : ℝ
  netFlowGex : ℝ
  callFlowDex : ℝ
  putFlowDex : ℝ
  netFlowDex : ℝ
  callGexB : ℝ
  putGexB : ℝ
  netGexB : ℝ
  callDexB : ℝ
  putDexB : ℝ
  netDexB : ℝ
  callFlowGexB : ℝ
  putFlowGexB : ℝ
  netFlowGexB : ℝ
  callFlowDexB : ℝ
  putFlowDexB : ℝ
  netFlowDexB : ℝ
  totalVolume : ℚ
  hedgingPressure : ℝ

/-- Per-strike row construction (lines 287-374): IV defaults of lines
309-310, the four Greek calls, and the GEX/DEX/flow formulas of lines
334-344 with the put-GEX sign flip. The `_B` columns, `Total_Volume` and
`Hedging_Pressure` are filled by the later pipeline stages. -/
noncomputable def mkRow (cfg : AggConfig) (q : RawOption) : ExposureRow :=
  let fut : ℚ := futuresLtp cfg
  let callIVdec : ℚ := if 0 < q.callIV then q.callIV / 100 else 15 / 100
  let putIVdec : ℚ := if 0 < q.putIV then q.putIV / 100 else 15 / 100
  let cG : ℝ := calculate_gamma fut q.strikePrice cfg.timeToExpiry risk_free_rate callIVdec
  let pG : ℝ := calculate_gamma fut q.strikePrice cfg.timeToExpiry risk_free_rate putIVdec
  let cD : ℝ := calculate_call_delta fut q.strikePrice cfg.timeToExpiry risk_free_rate callIVdec
  let pD : ℝ := calculate_put_delta fut q.strikePrice cfg.timeToExpiry risk_free_rate putIVdec
  let cGex : ℝ := ((q.callOI : ℝ) * cG * fut * fut * cfg.contractSize) / 1000000000
  let pGex : ℝ := -(((q.putOI : ℝ) * pG * fut * fut * cfg.contractSize) / 1000000000)
  let cDex : ℝ := ((q.callOI : ℝ) * cD * fut * cfg.contractSize) / 1000000000
  let pDex : ℝ := ((q.putOI : ℝ) * pD * fut * cfg.contractSize) / 1000000000
  let cFGex : ℝ := ((q.callOIChange : ℝ) * cG * fut * fut * cfg.contractSize) / 1000000000
  let pFGex : ℝ := -(((q.putOIChange : ℝ) * pG * fut * fut * cfg.contractSize) / 1000000000)
  let cFDex : ℝ := ((q.callOIChange : ℝ) * cD * fut * cfg.contractSize) / 1000000000
  let pFDex : ℝ := ((q.putOIChange : ℝ) * pD * fut * cfg.contractSize) / 1000000000
  { strike := q.strikePrice
    callOI := q.callOI, putOI := q.putOI
    callOIChange := q.callOIChange, putOIChange := q.putOIChange
    callVolume := q.callVolume, putVolume := q.putVolume
    callIV := q.callIV, putIV := q.putIV
    callLTP := q.callLTP, putLTP := q.putLTP
    callGamma := cG, putGamma := pG, callDelta := cD, putDelta := pD
    callGex := cGex, putGex := pGex, netGex := cGex + pGex
    callDex := cDex, putDex := pDex, netDex := cDex + pDex
    callFlowGex := cFGex, putFlowGex := pFGex, netFlowGex := cFGex + pFGex
    callFlowDex := cFDex, putFlowDex := pFDex, netFlowDex := cFDex + pFDex
    callGexB := 0, putGexB := 0, netGexB := 0
    callDexB := 0, putDexB := 0, netDexB := 0
    callFlowGexB := 0, putFlowGexB := 0, netFlowGexB := 0
    callFlowDexB := 0, putFlowDexB := 0, netFlowDexB := 0
    totalVolume := 0, hedgingPressure := 0 }

/-- `df.sort_values('Strike')` on the row table (line 382). -/
def sortStrikeRows (l : List ExposureRow) : List ExposureRow :=
  List.insertionSort (fun a b => a.strike ≤ b.strike) l

/-- The `_B` column duplication and `Total_Volume` of lines 384-396. -/
noncomputable def addB (r : ExposureRow) : ExposureRow :=
  { r with
    callGexB := r.callGex, putGexB := r.putGex, netGexB := r.netGex
    callDexB := r.callDex, putDexB := r.putDex, netDexB := r.netDex
    callFlowGexB := r.callFlowGex, putFlowGexB := r.putFlowGex
    netFlowGexB := r.netFlowGex
    callFlowDexB := r.callFlowDex, putFlowDexB := r.putFlowDex
    netFlowDexB := r.netFlowDex
    totalVolume := r.callVolume + r.putVolume }

/-- The hedging-pressure stage of lines 398-403 applied to the row table. -/
noncomputable def hedgingStage (rows : List ExposureRow) : List ExposureRow :=
  let m := maxAbsGex (rows.map (·.netGexB))
  if 0 < m then rows.map fun r => { r with hedgingPressure := r.netGexB / m * 100 }
  else rows.map fun r => { r with hedgingPressure := 0 }

structure AggResult where
  table : List ExposureRow
  futures : ℚ
  source : String
  atmInfo : AtmInfo

/-- The chain-processing core of `fetch_and_calculate_gex_dex`: on an empty
filtered strike set it produces the empty-table error result of lines
376-379 and 424-433 (`last_error = "No strikes found within range …"`,
surfaced as the `"Error: …"` source string); otherwise the success result
of lines 381-416 with source `"NSE Live"`. -/
noncomputable def fetch_and_calculate_gex_dex (cfg : AggConfig)
    (items : List RawOption) : AggResult :=
  let qs := selectQuotes cfg items
  if qs = [] then
    ⟨[], 0, "Error: No strikes found within range " ++ toString cfg.strikesRange,
     ⟨0, 0, 0, 0⟩⟩
  else
    ⟨hedgingStage ((sortStrikeRows (qs.map (mkRow cfg))).map addB),
     futuresLtp cfg, "NSE Live", atmInfoOf (futuresLtp cfg) qs⟩

/-- `q` has minimal ATM distance among all of `qs`. -/
def isMinIn (fut : ℚ) (qs : List RawOption) (q : RawOption) : Bool :=
  qs.all fun r => decide (atmDist fut q ≤ atmDist fut r)

/-- Restatement of the amended claim for C7: the reported ATM quote is the
first quote in scan (provider) order whose distance to the reference price
is minimal among all filtered quotes. -/
def atmFirstMin (fut : ℚ) (qs : List RawOption) : Option RawOption :=
  qs.find? (isMinIn fut qs)

/-- Ascending-strike reordering of the filtered quotes (what the original
claim's "ascending scan" tie-break would operate on). -/
def sortRawByStrike (qs : List RawOption) : List RawOption :=
  List.insertionSort (fun a b => a.strikePrice ≤ b.strikePrice) qs

/-- A config whose futures price is exactly 24525 (`spot * 1.002 = 24525`). -/
def atmCfg : AggConfig := ⟨"30-Jan-2025", 24525 * 1000 / 1002, 10, 25, 50, 7 / 365⟩

def atmRawHigh : RawOption := ⟨"30-Jan-2025", 24550, 0, 0, 0, 0, 0, 0, 0, 0, 11, 12⟩

def atmRawLow : RawOption := ⟨"30-Jan-2025", 24500, 0, 0, 0, 0, 0, 0, 0, 0, 21, 22⟩

def dupCfg : AggConfig := ⟨"30-Jan-2025", 100 * 1000 / 1002, 1000, 25, 1, 7 / 365⟩

def dupItemA : RawOption := ⟨"30-Jan-2025", 100, 5, 6, 1, 1, 2, 2, 10, 10, 3, 4⟩

def dupItemB : RawOption := ⟨"30-Jan-2025", 100, 8, 9, 2, 2, 4, 4, 12, 12, 5, 6⟩

set_option maxRecDepth 8000

lemma normPdf_nonneg (x : ℝ) : 0 ≤ normPdf x :=
  div_nonneg (Real.exp_nonneg _) (Real.sqrt_nonneg _)

lemma normPdf_eq (x : ℝ) :
    normPdf x = Real.exp (-(1 / 2 : ℝ) * x ^ 2) / Real.sqrt (2 * Real.pi) := by
  unfold normPdf
  ring_nf

lemma integrable_normPdf : Integrable normPdf := by
  have h : Integrable fun x : ℝ => Real.exp (-(1 / 2 : ℝ) * x ^ 2) :=
    integrable_exp_neg_mul_sq (by norm_num)
  have h2 := h.div_const (Real.sqrt (2 * Real.pi))
  refine h2.congr ?_
  filter_upwards with x
  rw [normPdf_eq]

lemma integral_normPdf : (∫ x, normPdf x) = 1 := by
  have hgauss : (∫ x : ℝ, Real.exp (-(1 / 2 : ℝ) * x ^ 2)) =
      Real.sqrt (Real.pi / (1 / 2)) := integral_gaussian (1 / 2)
  have hpi : Real.pi / (1 / 2 : ℝ) = 2 * Real.pi := by ring
  have hpos : (0 : ℝ) < Real.sqrt (2 * Real.pi) := by
    apply Real.sqrt_pos.2
    positivity
  calc (∫ x, normPdf x)
      = (∫ x : ℝ, Real.exp (-(1 / 2 : ℝ) * x ^ 2)) / Real.sqrt (2 * Real.pi) := by
        rw [← integral_div]
        exact integral_congr_ae (by filter_upwards with x; rw [normPdf_eq])
    _ = Real.sqrt (2 * Real.pi) / Real.sqrt (2 * Real.pi) := by
        rw [hgauss, hpi]
    _ = 1 := div_self (ne_of_gt hpos)

lemma normCdf_nonneg (x : ℝ) : 0 ≤ normCdf x :=
  setIntegral_nonneg measurableSet_Iic fun t _ => normPdf_nonneg t

lemma normCdf_le_one (x : ℝ) : normCdf x ≤ 1 := by
  rw [← integral_normPdf]
  exact setIntegral_le_integral integrable_normPdf
    (Filter.Eventually.of_forall normPdf_nonneg)

/-- C4: whenever `T ≤ 0`, `sigma ≤ 0`, `S ≤ 0` or `K ≤ 0`, the Greek
engine returns gamma = 0, call delta = 0 and put delta = 0 (the degenerate
guard of `BlackScholesCalculator` short-circuits every output to zero). -/
theorem degenerate_inputs_give_zero_greeks (S K T r sigma : ℝ)
    (h : T ≤ 0 ∨ sigma ≤ 0 ∨ S ≤ 0 ∨ K ≤ 0) :
    calculate_gamma S K T r sigma = 0 ∧
    calculate_call_delta S K T r sigma = 0 ∧
    calculate_put_delta S K T r sigma = 0 := by
  refine ⟨?_, ?_, ?_⟩ <;>
    simp only [calculate_gamma, calculate_call_delta, calculate_put_delta, if_pos h]

/-- Witness for C4 at the concrete degenerate input `(S, K, T, r, σ) = (1, 1, 0, 0, 1)`. -/
theorem degenerate_inputs_give_zero_greeks_witness :
    ((0 : ℝ) ≤ 0 ∨ (1 : ℝ) ≤ 0 ∨ (1 : ℝ) ≤ 0 ∨ (1 : ℝ) ≤ 0) ∧
    (calculate_gamma 1 1 0 0 1 = 0 ∧
     calculate_call_delta 1 1 0 0 1 = 0 ∧
     calculate_put_delta 1 1 0 0 1 = 0) :=
  ⟨Or.inl le_rfl,
   degenerate_inputs_give_zero_greeks 1 1 0 0 1 (Or.inl le_rfl)⟩

/-- C5: for non-degenerate inputs the call delta lies in `[0, 1]`, the
put delta lies in `[-1, 0]`, and call delta minus put delta is exactly 1. -/
theorem delta_bounds_and_parity (S K T r sigma : ℝ)
    (hS : 0 < S) (hK : 0 < K) (hT : 0 < T) (hsigma : 0 < sigma) :
    0 ≤ calculate_call_delta S K T r sigma ∧
    calculate_call_delta S K T r sigma ≤ 1 ∧
    (-1 : ℝ) ≤ calculate_put_delta S K T r sigma ∧
    calculate_put_delta S K T r sigma ≤ 0 ∧
    calculate_call_delta S K T r sigma - calculate_put_delta S K T r sigma = 1 := by
  have hguard : ¬(T ≤ 0 ∨ sigma ≤ 0 ∨ S ≤ 0 ∨ K ≤ 0) := by
    push_neg
    exact ⟨hT, hsigma, hS, hK⟩
  have hc : calculate_call_delta S K T r sigma = normCdf (calculate_d1 S K T r sigma) := by
    simp only [calculate_call_delta, if_neg hguard]
  have hp : calculate_put_delta S K T r sigma =
      normCdf (calculate_d1 S K T r sigma) - 1 := by
    simp only [calculate_put_delta, if_neg hguard]
  refine ⟨?_, ?_, ?_, ?_, ?_⟩
  · rw [hc]; exact normCdf_nonneg _
  · rw [hc]; exact normCdf_le_one _
  · rw [hp]
    have := normCdf_nonneg (calculate_d1 S K T r sigma)
    linarith
  · rw [hp]
    have := normCdf_le_one (calculate_d1 S K T r sigma)
    linarith
  · rw [hc, hp]; ring

/-- Witness for C5 at the concrete valid input `(S, K, T, r, σ) = (1, 1, 1, 0, 1)`. -/
theorem delta_bounds_and_parity_witness :
    ((0 : ℝ) < 1) ∧
    (0 ≤ calculate_call_delta 1 1 1 0 1 ∧
     calculate_call_delta 1 1 1 0 1 ≤ 1 ∧
     (-1 : ℝ) ≤ calculate_put_delta 1 1 1 0 1 ∧
     calculate_put_delta 1 1 1 0 1 ≤ 0 ∧
     calculate_call_delta 1 1 1 0 1 - calculate_put_delta 1 1 1 0 1 = 1) :=
  ⟨zero_lt_one,
   delta_bounds_and_parity 1 1 1 0 1 zero_lt_one zero_lt_one zero_lt_one zero_lt_one⟩

/-- C2 counterexample: at the GEX flow total `t = 10` (which is not
greater than 50) the code reports a bullish/sideways label, not the
neutral label; and at the DEX near total `0` the code reports the neutral
label, not a bearish one — refuting both the claimed three-band GEX rule
and the claimed two-valued DEX rule. -/
theorem bias_threshold_counterexample :
    get_gex_bias 10 = ("BULLISH (Sideways to Bullish)", "lightgreen") ∧
    get_gex_bias 10 ≠ ("NEUTRAL", "orange") ∧
    ¬((10 : ℚ) > 50) ∧
    get_dex_bias 0 = ("NEUTRAL", "orange") ∧
    get_dex_bias 0 ≠ ("BEARISH", "red") ∧
    get_dex_bias 0 ≠ ("Mild Bearish", "lightcoral") := by
  decide

/-- C2 amended: the GEX bias has five exact bands — strong bullish for
`t > 50`, bullish for `0 < t ≤ 50`, strong high-volatility for `t < -50`,
high-volatility for `-50 ≤ t < 0`, and neutral exactly at `t = 0`; the DEX
bias likewise has five exact bands (bullish, mild bullish, bearish, mild
bearish, neutral at 0). -/
theorem bias_band_characterization (t : ℚ) :
    (get_gex_bias t = ("STRONG BULLISH (Sideways to Bullish)", "green") ↔ 50 < t) ∧
    (get_gex_bias t = ("BULLISH (Sideways to Bullish)", "lightgreen") ↔ 0 < t ∧ t ≤ 50) ∧
    (get_gex_bias t = ("HIGH VOLATILITY (Strong)", "red") ↔ t < -50) ∧
    (get_gex_bias t = ("HIGH VOLATILITY", "lightcoral") ↔ -50 ≤ t ∧ t < 0) ∧
    (get_gex_bias t = ("NEUTRAL", "orange") ↔ t = 0) ∧
    (get_dex_bias t = ("BULLISH", "green") ↔ 50 < t) ∧
    (get_dex_bias t = ("BEARISH", "red") ↔ t < -50) ∧
    (get_dex_bias t = ("Mild Bullish", "lightgreen") ↔ 0 < t ∧ t ≤ 50) ∧
    (get_dex_bias t = ("Mild Bearish", "lightcoral") ↔ -50 ≤ t ∧ t < 0) ∧
    (get_dex_bias t = ("NEUTRAL", "orange") ↔ t = 0) := by
  unfold get_gex_bias get_dex_bias
  split_ifs with h1 h2 h3 h4 h5 <;>
    refine ⟨?_, ?_, ?_, ?_, ?_, ?_, ?_, ?_, ?_, ?_⟩ <;>
    simp_all <;>
    first
      | linarith
      | (intros; linarith)

/-- C1 counterexample: on `exTable` with reference price 158 the code's
near-money GEX total is 1002 (it selects the 5 positive-`net_gex` strikes
and the 5 negative-`net_gex` strikes nearest in price distance, reaching
the far-away strikes 100 and 220), whereas the net sum over the claimed
positional window — 5 strikes each side of the strike adjacent to 158 —
is −11. -/
theorem near_window_positional_counterexample :
    (calculate_dual_gex_dex_flow exTable 158).gex_near_total = 1002 ∧
    gexNearTotalPositional exTable 158 = -11 ∧
    (1002 : ℚ) ≠ -11 := by
  refine ⟨?_, ?_, by norm_num⟩
  · with_unfolding_all rfl
  · with_unfolding_all rfl

lemma sumGex_nil : sumGex [] = 0 := rfl

lemma sumDex_nil : sumDex [] = 0 := rfl

lemma if_empty_sumGex (X : List FlowRow) :
    (if X = [] then (0 : ℚ) else sumGex X) = sumGex X := by
  by_cases h : X = []
  · simp [h, sumGex_nil]
  · rw [if_neg h]

lemma if_empty_sumDex (X : List FlowRow) :
    (if X = [] then (0 : ℚ) else sumDex X) = sumDex X := by
  by_cases h : X = []
  · simp [h, sumDex_nil]
  · rw [if_neg h]

lemma guarded_sel_eq (fut : ℚ) (l : List FlowRow) :
    (if l = [] then l else (sortDistance fut l).take 5) =
      (sortDistance fut l).take 5 := by
  by_cases h : l = []
  · simp [h, sortDistance]
  · rw [if_neg h]

/-- C1 amended: for every exposure table and reference price, the
near-money GEX total is the sign-partitioned price-distance selection
described by `gexNearDescr` (not a positional window), and the near-money
DEX total is the 5-above/5-below positional-by-price selection described
by `dexNearDescr`. -/
theorem near_window_sign_partitioned (df : List FlowRow) (futures_ltp : ℚ) :
    (calculate_dual_gex_dex_flow df futures_ltp).gex_near_total =
      gexNearDescr df futures_ltp ∧
    (calculate_dual_gex_dex_flow df futures_ltp).dex_near_total =
      dexNearDescr df futures_ltp := by
  unfold calculate_dual_gex_dex_flow gexNearDescr dexNearDescr
  by_cases hdf : df = []
  · subst hdf
    simp [noDataFlowMetrics, drop_duplicates, dropDupGo, sortStrike, sortDistance,
      sumGex, sumDex, takeLast]
  · rw [if_neg hdf]
    dsimp only
    constructor
    · rw [guarded_sel_eq, guarded_sel_eq, if_empty_sumGex, if_empty_sumGex]
    · rw [if_empty_sumDex, if_empty_sumDex]

lemma mkFlipZone_eq_claim (a b : FlowRow) : mkFlipZone a b = claimFlipZone (a, b) := by
  unfold mkFlipZone claimFlipZone claimFlipPrice
  dsimp only
  have hs : (0 : ℚ) ≤ |a.netGexB| + |b.netGexB| := by positivity
  by_cases h : |a.netGexB| + |b.netGexB| = 0
  · rw [if_pos h, if_neg (show ¬0 < |a.netGexB| + |b.netGexB| by rw [h]; exact lt_irrefl 0)]
  · rw [if_neg h, if_pos (lt_of_le_of_ne hs (Ne.symm h))]
    rw [mul_div_assoc]

lemma flipScan_descr : ∀ l : List FlowRow,
    flipScan l = ((l.zip l.tail).filter strictFlip).map claimFlipZone
  | [] => by simp [flipScan]
  | [a] => by simp [flipScan]
  | a :: b :: rest => by
      have ih := flipScan_descr (b :: rest)
      simp only [flipScan, List.tail_cons, List.zip_cons_cons, List.filter_cons]
      by_cases h : (0 < a.netGexB ∧ b.netGexB < 0) ∨ (a.netGexB < 0 ∧ 0 < b.netGexB)
      · rw [if_pos h, ih]
        have hb : strictFlip (a, b) = true := by
          unfold strictFlip
          exact decide_eq_true h
        rw [hb]
        simp [mkFlipZone_eq_claim]
      · rw [if_neg h, ih]
        have hb : strictFlip (a, b) = false := by
          unfold strictFlip
          exact decide_eq_false h
        rw [hb]
        simp

/-- C8: for every exposure table, the detector reports a flip zone for an
adjacent pair of the price-sorted table exactly when the current `net_gex` is
strictly positive and the next strictly negative or vice versa (zero on
either side yields no flip), and each zone carries the magnitude-weighted
interpolated flip price with midpoint fallback. -/
theorem flip_zone_characterization (df : List FlowRow) :
    detect_gamma_flip_zones df = flipZonesDescr df := by
  unfold detect_gamma_flip_zones flipZonesDescr
  by_cases h : df = []
  · subst h
    simp [sortStrike, flipScan, List.insertionSort]
  · rw [if_neg h]
    exact flipScan_descr _

lemma maxAbsGex_nonneg {α : Type} [LinearOrderedField α] (l : List α) :
    0 ≤ maxAbsGex l := by
  induction l with
  | nil => exact le_refl 0
  | cons g rest ih => exact le_trans ih (le_max_right _ _)

lemma abs_le_maxAbsGex {α : Type} [LinearOrderedField α] {l : List α} {g : α}
    (hg : g ∈ l) : |g| ≤ maxAbsGex l := by
  induction l with
  | nil => cases hg
  | cons a rest ih =>
      rcases List.mem_cons.1 hg with h | h
      · subst h
        exact le_max_left _ _
      · exact le_trans (ih h) (le_max_right _ _)

/-- C9: every hedging-pressure value is `100 * net_gex / max |net_gex|`,
lies in `[-100, 100]`, and is exactly 0 for every row when the maximum
absolute `net_gex` is 0 (the division is guarded and never performed on a
zero maximum); moreover the aggregator's hedging stage is exactly this
column operation applied to the `Net_GEX_B` column. -/
theorem hedging_pressure_characterization {α : Type} [LinearOrderedField α]
    (l : List α) (rows : List ExposureRow) :
    (List.Forall (fun h => -100 ≤ h ∧ h ≤ 100) (hedging_pressure_col l) ∧
     List.Forall₂ (fun g h => h = 100 * g / maxAbsGex l) l (hedging_pressure_col l) ∧
     (maxAbsGex l = 0 → List.Forall (fun h => h = 0) (hedging_pressure_col l))) ∧
    (hedgingStage rows).map (·.hedgingPressure) =
      hedging_pressure_col (rows.map (·.netGexB)) := by
  refine ⟨?_, ?_⟩
  case refine_2 =>
    unfold hedgingStage hedging_pressure_col
    dsimp only
    split_ifs with hm <;> rw [List.map_map, List.map_map] <;> rfl
  unfold hedging_pressure_col
  by_cases hm : 0 < maxAbsGex l
  · rw [if_pos hm]
    refine ⟨?_, ?_, ?_⟩
    · rw [List.forall_iff_forall_mem]
      intro x hx
      rcases List.mem_map.1 hx with ⟨g, hg, rfl⟩
      have habs := abs_le_maxAbsGex hg
      have h1 : g / maxAbsGex l ≤ 1 := (div_le_one hm).2 (le_trans (le_abs_self g) habs)
      have h2 : (-1 : α) ≤ g / maxAbsGex l := by
        rw [le_div_iff₀ hm]
        have := neg_abs_le g
        linarith [habs]
      constructor <;> nlinarith
    · rw [List.forall₂_map_right_iff]
      refine List.forall₂_same.2 fun g _ => ?_
      field_simp
      ring
    · intro h0
      rw [h0] at hm
      exact absurd hm (lt_irrefl 0)
  · rw [if_neg hm]
    refine ⟨?_, ?_, ?_⟩
    · rw [List.forall_iff_forall_mem]
      intro x hx
      rcases List.mem_map.1 hx with ⟨g, _, rfl⟩
      norm_num
    · rw [List.forall₂_map_right_iff]
      refine List.forall₂_same.2 fun g hg => ?_
      have h0 : maxAbsGex l = 0 :=
        le_antisymm (not_lt.1 hm) (maxAbsGex_nonneg l)
      have hg0 : g = 0 := by
        have := abs_le_maxAbsGex hg
        rw [h0] at this
        exact abs_eq_zero.1 (le_antisymm this (abs_nonneg g))
      rw [h0, hg0]
      norm_num
    · intro _
      rw [List.forall_iff_forall_mem]
      intro x hx
      rcases List.mem_map.1 hx with ⟨g, _, rfl⟩
      rfl

/-- Witness for C9's guarded zero case at the concrete all-zero column
`[0, 0] : List ℚ`. -/
theorem hedging_pressure_characterization_witness :
    maxAbsGex [(0 : ℚ), 0] = 0 ∧
    List.Forall (fun h => h = 0) (hedging_pressure_col [(0 : ℚ), 0]) := by
  have h0 : maxAbsGex [(0 : ℚ), 0] = 0 := by
    with_unfolding_all rfl
  exact ⟨h0, (hedging_pressure_characterization [(0 : ℚ), 0] []).1.2.2 h0⟩

lemma error_source_ne (s : String) :
    "Error: No strikes found within range " ++ s ≠ "NSE Live" := by
  intro h
  have hlen := congrArg String.length h
  rw [String.length_append] at hlen
  have h1 : ("Error: No strikes found within range " : String).length = 37 := rfl
  have h2 : ("NSE Live" : String).length = 8 := rfl
  rw [h1, h2] at hlen
  omega

lemma hedgingStage_length (rows : List ExposureRow) :
    (hedgingStage rows).length = rows.length := by
  unfold hedgingStage
  dsimp only
  split <;> rw [List.length_map]

/-- C3: the aggregation succeeds (source `"NSE Live"`) exactly when its
table is non-empty, and the filtered strike set is empty exactly when the
result carries the explicit `"Error: No strikes found within range …"`
condition — an empty-but-successful table is impossible. -/
theorem empty_filter_is_explicit_error (cfg : AggConfig) (items : List RawOption) :
    ((fetch_and_calculate_gex_dex cfg items).source = "NSE Live" ↔
      (fetch_and_calculate_gex_dex cfg items).table ≠ []) ∧
    (selectQuotes cfg items = [] ↔
      (fetch_and_calculate_gex_dex cfg items).source =
        "Error: No strikes found within range " ++ toString cfg.strikesRange) := by
  unfold fetch_and_calculate_gex_dex
  by_cases h : selectQuotes cfg items = []
  · rw [if_pos h]
    dsimp only
    refine ⟨⟨fun hs => absurd hs (error_source_ne _), fun ht => absurd rfl ht⟩,
      ⟨fun _ => rfl, fun _ => h⟩⟩
  · rw [if_neg h]
    dsimp only
    have htab : (hedgingStage ((sortStrikeRows ((selectQuotes cfg items).map
        (mkRow cfg))).map addB)) ≠ [] := by
      intro hnil
      have hlen := congrArg List.length hnil
      rw [hedgingStage_length, List.length_map] at hlen
      have : (sortStrikeRows ((selectQuotes cfg items).map (mkRow cfg))).length =
          (selectQuotes cfg items).length := by
        unfold sortStrikeRows
        rw [List.length_insertionSort, List.length_map]
      rw [this] at hlen
      exact h (List.eq_nil_of_length_eq_zero hlen)
    refine ⟨⟨fun _ => htab, fun _ => rfl⟩,
      ⟨fun he => absurd he h, fun hs => absurd hs.symm (error_source_ne _)⟩⟩

/-- C6: in every row of the aggregated table, `net_gex` is exactly
`call_gex + put_gex`, `net_dex` is exactly `call_dex + put_dex`, and
likewise for the flow variants (these are pure sums set at row
construction). -/
theorem net_totals_are_call_plus_put (cfg : AggConfig) (items : List RawOption) :
    List.Forall (fun r : ExposureRow =>
      r.netGex = r.callGex + r.putGex ∧
      r.netDex = r.callDex + r.putDex ∧
      r.netFlowGex = r.callFlowGex + r.putFlowGex ∧
      r.netFlowDex = r.callFlowDex + r.putFlowDex)
      (fetch_and_calculate_gex_dex cfg items).table := by
  rw [List.forall_iff_forall_mem]
  intro r hr
  unfold fetch_and_calculate_gex_dex at hr
  dsimp only at hr
  by_cases h : selectQuotes cfg items = []
  · rw [if_pos h] at hr
    exact absurd hr (List.not_mem_nil r)
  · rw [if_neg h] at hr
    unfold hedgingStage at hr
    dsimp only at hr
    split at hr <;>
    · obtain ⟨r1, hr1, rfl⟩ := List.mem_map.1 hr
      obtain ⟨r2, hr2, rfl⟩ := List.mem_map.1 hr1
      unfold sortStrikeRows at hr2
      have hr3 : r2 ∈ (selectQuotes cfg items).map (mkRow cfg) :=
        (List.mem_insertionSort _).1 hr2
      obtain ⟨q, _, rfl⟩ := List.mem_map.1 hr3
      exact ⟨rfl, rfl, rfl, rfl⟩

lemma find?_congr_mem {p q : RawOption → Bool} :
    ∀ l : List RawOption, (∀ x ∈ l, p x = q x) → l.find? p = l.find? q
  | [], _ => rfl
  | a :: l, h => by
      have ha := h a (List.mem_cons_self a l)
      by_cases hpa : p a = true
      · rw [List.find?_cons_of_pos _ hpa, List.find?_cons_of_pos _ (ha ▸ hpa)]
      · have hqa : ¬q a = true := ha ▸ hpa
        rw [List.find?_cons_of_neg _ hpa, List.find?_cons_of_neg _ hqa]
        exact find?_congr_mem l fun x hx => h x (List.mem_cons_of_mem a hx)

lemma atmFirstMin_drop_head (fut : ℚ) (best q : RawOption) (rest : List RawOption)
    (h : atmDist fut q < atmDist fut best) :
    atmFirstMin fut (best :: q :: rest) = atmFirstMin fut (q :: rest) := by
  unfold atmFirstMin
  have hbest : ¬isMinIn fut (best :: q :: rest) best = true := by
    intro htrue
    rw [isMinIn, List.all_eq_true] at htrue
    have hq := htrue q (by simp)
    rw [decide_eq_true_eq] at hq
    exact absurd hq (not_le.2 h)
  rw [List.find?_cons_of_neg _ hbest]
  apply find?_congr_mem
  intro x hx
  have hexp : isMinIn fut (best :: q :: rest) x =
      (decide (atmDist fut x ≤ atmDist fut best) && isMinIn fut (q :: rest) x) := rfl
  rw [hexp]
  cases hsm : isMinIn fut (q :: rest) x
  · rw [Bool.and_false]
  · have hxq : atmDist fut x ≤ atmDist fut q := by
      rw [isMinIn, List.all_eq_true] at hsm
      have := hsm q (by simp)
      rwa [decide_eq_true_eq] at this
    have hxb : atmDist fut x ≤ atmDist fut best := le_trans hxq (le_of_lt h)
    rw [decide_eq_true hxb, Bool.true_and]

lemma atmFirstMin_drop_second (fut : ℚ) (best q : RawOption) (rest : List RawOption)
    (h : atmDist fut best ≤ atmDist fut q) :
    atmFirstMin fut (best :: q :: rest) = atmFirstMin fut (best :: rest) := by
  unfold atmFirstMin
  have hhead : isMinIn fut (best :: q :: rest) best = isMinIn fut (best :: rest) best := by
    simp [isMinIn, List.all_cons, h]
  by_cases hb : isMinIn fut (best :: rest) best = true
  · rw [List.find?_cons_of_pos _ (hhead ▸ hb), List.find?_cons_of_pos _ hb]
  · rw [List.find?_cons_of_neg _ (hhead ▸ hb), List.find?_cons_of_neg _ hb]
    have hq : ¬isMinIn fut (best :: q :: rest) q = true := by
      intro htrue
      rw [isMinIn, List.all_eq_true] at htrue
      apply hb
      rw [isMinIn, List.all_eq_true]
      intro r hr
      rw [decide_eq_true_eq]
      rcases List.mem_cons.1 hr with rfl | hr
      · exact le_refl _
      · have := htrue r (by simp [hr])
        rw [decide_eq_true_eq] at this
        exact le_trans h this
    rw [List.find?_cons_of_neg _ hq]
    apply find?_congr_mem
    intro x hx
    by_cases hxb : atmDist fut x ≤ atmDist fut best
    · have hxq : atmDist fut x ≤ atmDist fut q := le_trans hxb h
      simp [isMinIn, List.all_cons, hxb, hxq]
    · simp [isMinIn, List.all_cons, hxb]

lemma atmGoAux_descr (fut : ℚ) :
    ∀ (l : List RawOption) (best : RawOption),
      some (atmGoAux fut best (atmDist fut best) l) = atmFirstMin fut (best :: l)
  | [], best => by
      unfold atmGoAux atmFirstMin
      rw [List.find?_cons_of_pos _ (by simp [isMinIn])]
  | q :: rest, best => by
      unfold atmGoAux
      by_cases hlt : atmDist fut q < atmDist fut best
      · rw [if_pos hlt, atmFirstMin_drop_head fut best q rest hlt]
        exact atmGoAux_descr fut rest q
      · rw [if_neg hlt, atmFirstMin_drop_second fut best q rest (not_lt.1 hlt)]
        exact atmGoAux_descr fut rest best

/-- C7 amended: the ATM scan picks the first quote *in provider (scan)
order* whose absolute distance to the reference price is minimal over the
filtered quotes — a minimiser with ties broken by scan order, not by
ascending strike — and the reported AtmInfo carries that quote's strike,
its call and put premiums, and their sum as the straddle premium. -/
theorem atm_scan_is_provider_order_first_min (fut : ℚ) (qs : List RawOption) :
    atmScan fut qs = atmFirstMin fut qs ∧
    atmInfoOf fut qs =
      (match atmFirstMin fut qs with
       | none => ⟨0, 0, 0, 0⟩
       | some q => ⟨q.strikePrice, q.callLTP, q.putLTP, q.callLTP + q.putLTP⟩) := by
  have h1 : atmScan fut qs = atmFirstMin fut qs := by
    cases qs with
    | nil => rfl
    | cons q rest => exact atmGoAux_descr fut rest q
  refine ⟨h1, ?_⟩
  unfold atmInfoOf
  rw [h1]

/-- C7 counterexample: with reference price 24525 and the provider
sending strike 24550 before strike 24500 (both at distance 25, a tie), the
aggregator reports `atm_strike = 24550` — the first minimiser in provider
order — while a scan of the same quotes in ascending strike order would
report 24500, refuting the claimed ascending-scan tie-break. -/
theorem atm_tie_break_counterexample :
    (fetch_and_calculate_gex_dex atmCfg [atmRawHigh, atmRawLow]).atmInfo.atm_strike = 24550 ∧
    (atmInfoOf (futuresLtp atmCfg)
      (sortRawByStrike (selectQuotes atmCfg [atmRawHigh, atmRawLow]))).atm_strike = 24500 ∧
    |(24500 : ℚ) - futuresLtp atmCfg| = |(24550 : ℚ) - futuresLtp atmCfg| ∧
    (24550 : ℚ) ≠ 24500 := by
  refine ⟨?_, ?_, ?_, by norm_num⟩
  · with_unfolding_all rfl
  · with_unfolding_all rfl
  · with_unfolding_all rfl

lemma selGo_append (cfg : AggConfig) :
    ∀ (pre : List RawOption) (seen : List ℚ) (l : List RawOption),
      selGo cfg seen (pre ++ l) =
        selGo cfg seen pre ++ selGo cfg (seenGo cfg seen pre) l
  | [], seen, l => rfl
  | it :: pre, seen, l => by
      simp only [List.cons_append, selGo, seenGo]
      split_ifs with h1 h2 h3
      · exact selGo_append cfg pre seen l
      · exact selGo_append cfg pre seen l
      · exact selGo_append cfg pre (it.strikePrice :: seen) l
      · simp only [List.cons_append]
        exact congrArg _ (selGo_append cfg pre (it.strikePrice :: seen) l)

lemma selGo_skip_seen (cfg : AggConfig) (seen : List ℚ) (it : RawOption)
    (rest : List RawOption) (h : it.strikePrice ∈ seen) :
    selGo cfg seen (it :: rest) = selGo cfg seen rest := by
  simp only [selGo]
  split_ifs with h1 h2 h3 <;> first | rfl | exact absurd (Or.inr h) h2

lemma selGo_strikes_nodup (cfg : AggConfig) :
    ∀ (l : List RawOption) (seen : List ℚ),
      ((selGo cfg seen l).map (·.strikePrice)).Nodup ∧
      ∀ s ∈ (selGo cfg seen l).map (·.strikePrice), s ∉ seen
  | [], _ => ⟨List.nodup_nil, by simp [selGo]⟩
  | it :: rest, seen => by
      simp only [selGo]
      split_ifs with h1 h2 h3
      · exact selGo_strikes_nodup cfg rest seen
      · exact selGo_strikes_nodup cfg rest seen
      · obtain ⟨hnd, hnotin⟩ := selGo_strikes_nodup cfg rest (it.strikePrice :: seen)
        exact ⟨hnd, fun s hs hseen => hnotin s hs (List.mem_cons_of_mem _ hseen)⟩
      · obtain ⟨hnd, hnotin⟩ := selGo_strikes_nodup cfg rest (it.strikePrice :: seen)
        constructor
        · simp only [List.map_cons, List.nodup_cons]
          exact ⟨fun hmem => hnotin _ hmem (List.mem_cons_self _ _), hnd⟩
        · intro s hs
          simp only [List.map_cons, List.mem_cons] at hs
          rcases hs with rfl | hs
          · exact fun hseen => h2 (Or.inr hseen)
          · exact fun hseen => hnotin s hs (List.mem_cons_of_mem _ hseen)

/-- C10: within the selected expiry, a record whose strike was already
processed earlier in provider order is silently ignored — removing it does
not change the filtered quote list at all — and consequently the strikes of
the resulting table are pairwise distinct. -/
theorem duplicate_strikes_first_seen_wins (cfg : AggConfig)
    (items pre post : List RawOption) (it : RawOption)
    (h : it.strikePrice ∈ processedStrikes cfg pre) :
    selectQuotes cfg (pre ++ it :: post) = selectQuotes cfg (pre ++ post) ∧
    ((selectQuotes cfg items).map (·.strikePrice)).Nodup := by
  constructor
  · unfold selectQuotes
    rw [selGo_append cfg pre [] (it :: post), selGo_append cfg pre [] post]
    unfold processedStrikes at h
    rw [selGo_skip_seen cfg _ it post h]
  · exact (selGo_strikes_nodup cfg items []).1

/-- Witness for C10 at a concrete chain with two records sharing strike 100
and differing open interest: the later record is ignored. -/
theorem duplicate_strikes_first_seen_wins_witness :
    dupItemB.strikePrice ∈ processedStrikes dupCfg [dupItemA] ∧
    selectQuotes dupCfg ([dupItemA] ++ dupItemB :: []) =
      selectQuotes dupCfg ([dupItemA] ++ []) ∧
    ((selectQuotes dupCfg [dupItemA, dupItemB]).map (·.strikePrice)).Nodup := by
  have h : dupItemB.strikePrice ∈ processedStrikes dupCfg [dupItemA] := by
    with_unfolding_all decide
  exact ⟨h,
    (duplicate_strikes_first_seen_wins dupCfg [dupItemA, dupItemB] [dupItemA] [] dupItemB h).1,
    (duplicate_strikes_first_seen_wins dupCfg [dupItemA, dupItemB] [dupItemA] [] dupItemB h).2⟩

end GexCalc
